import Mathlib

/-!
Verification of the web voice-recorder implementation
(`VoiceRecorderImpl.ts`, `audio-helpers.js`, `safari-helpers.ts`).

The embedding models:
* binary audio chunks and blobs (`Blob`),
* the chunk validation / accumulation helpers (`handleChunk`,
  `handleSafariChunk`, `createBlob`),
* the Safari detection helper (`isSafari`),
* the instance state of `VoiceRecorderImpl` (`InstState`) together with
  its operations (`startRecording`, `stopRecording`, the `onstop`,
  `onerror`, `ondataavailable` and interval-timer callbacks), and
* a small-step reachability relation over instance states.

JavaScript `null`/`undefined` values are modelled with `Option`; the
host-provided browser facilities (mime-type support, permission query,
`getUserMedia`, the `FileReader` data-URL encoder, the clock) are
collected in an `Env` record that the operations take as input.
-/

namespace VoiceRec

/-- A binary blob as the code sees it: its byte content and its MIME
type string.  `size` is the byte length, as for a DOM `Blob`.  Chunks
delivered by `ondataavailable` are blobs as well. -/
structure Blob where
  data : List Nat
  type : String
deriving Repr, DecidableEq

/-- `blob.size` — the DOM `Blob.size` attribute (byte length). -/
def Blob.size (b : Blob) : Nat := b.data.length

/-- Does the character list `s` start with the pattern `pat`? -/
def charListStartsWith : List Char → List Char → Bool
  | _, [] => true
  | [], _ :: _ => false
  | a :: as, p :: ps => a == p && charListStartsWith as ps

/-- JavaScript `String.prototype.startsWith`, on strings as character
sequences. -/
def jsStartsWith (s pat : String) : Bool :=
  charListStartsWith s.toList pat.toList

/-- `handleChunk` from `dist/esm/audio-helpers.js`:

```js
export const handleChunk = (chunk, existingChunks) => {
    if (chunk && chunk.size > 0) {
        try {
            if (chunk.type && chunk.type.startsWith('audio/')) {
                return [...existingChunks, chunk];
            }
        } catch (error) { ... }
    } else { ... }
    return existingChunks;
};
```

A `null`/`undefined` chunk is a `none`; JS truthiness of the `type`
string is the test `type ≠ ""`. -/
def handleChunk (chunk : Option Blob) (existingChunks : List Blob) : List Blob :=
  match chunk with
  | some c =>
    if c.size > 0 then
      if c.type ≠ "" ∧ jsStartsWith c.type "audio/" then existingChunks ++ [c]
      else existingChunks
    else existingChunks
  | none => existingChunks

/-- `isSafari` from `src/safari-helpers.ts`.  The user-agent regex test
is commented out in the source; the function unconditionally returns
`true`:

```ts
export const isSafari = (): boolean => {
    return true;
//  return /^((?!chrome|android).)*safari/i.test(navigator.userAgent);
};
```
-/
def isSafari : Bool := true

/-- `handleSafariChunk` from `src/safari-helpers.ts`.  Identical
validation to `handleChunk`, behind an `isSafari()` test whose negative
branch appends the chunk unconditionally (unreachable, since `isSafari`
is constantly `true`; a `none` chunk is modelled as appending nothing
there). -/
def handleSafariChunk (chunk : Option Blob) (existingChunks : List Blob) : List Blob :=
  if !isSafari then existingChunks ++ chunk.toList
  else
    match chunk with
    | some c =>
      if c.size > 0 then
        if c.type ≠ "" ∧ jsStartsWith c.type "audio/" then existingChunks ++ [c]
        else existingChunks
      else existingChunks
    | none => existingChunks

/-- `createBlob` from `dist/esm/audio-helpers.js`: `new Blob(chunks,
{ type: mimeType })` concatenates the chunk contents in order.  (The
`catch` fallback to `'audio/webm'` guards a constructor exception that
cannot occur in this pure model.) -/
def createBlob (chunks : List Blob) (mimeType : String) : Blob :=
  { data := (chunks.map Blob.data).flatten, type := mimeType }

/-- The guard of `ondataavailable` in `VoiceRecorderImpl.ts` composed
with `handleChunk`:

```ts
this.mediaRecorder.ondataavailable = (event) => {
  if (event.data && event.data.size > 0) {
    this.chunks = handleChunk(event.data, this.chunks);
  }
};
```
-/
def ondataavailableUpdate (data : Option Blob) (chunks : List Blob) : List Blob :=
  match data with
  | some d => if d.size > 0 then handleChunk (some d) chunks else chunks
  | none => chunks

/-- Running the `ondataavailable` handler over a whole sequence of
delivered (possibly null) chunks, starting from an accumulator. -/
def accumulateFrom (init : List Blob) (delivered : List (Option Blob)) : List Blob :=
  delivered.foldl (fun acc oc => ondataavailableUpdate oc acc) init

/-- The chunk list accumulated from a delivery sequence, starting empty
(as `startRecording` / `onSuccessfullyStartedRecording` reset
`this.chunks = []`). -/
def accumulateChunks (delivered : List (Option Blob)) : List Blob :=
  accumulateFrom [] delivered

/-- The acceptance test `handleChunk` applies to a delivered chunk:
non-null, strictly positive size, truthy MIME type starting with
`'audio/'`. -/
def chunkAccepted (chunk : Option Blob) : Bool :=
  match chunk with
  | some c => decide (c.size > 0) && (decide (c.type ≠ "") && jsStartsWith c.type "audio/")
  | none => false

/-- `POSSIBLE_MIME_TYPES` from `VoiceRecorderImpl.ts`, as the ordered
key/extension association the code iterates over. -/
def POSSIBLE_MIME_TYPES : List (String × String) :=
  [("audio/aac", ".aac"),
   ("audio/mp4", ".mp3"),
   ("audio/webm;codecs=opus", ".ogg"),
   ("audio/webm", ".ogg"),
   ("audio/ogg;codecs=opus", ".ogg")]

/-- The host browser facilities the implementation calls into. -/
structure Env where
  /-- `navigator?.mediaDevices?.getUserMedia != null` -/
  getUserMediaAvailable : Bool
  /-- `MediaRecorder?.isTypeSupported != null` -/
  isTypeSupportedAvailable : Bool
  /-- `MediaRecorder.isTypeSupported(type)` -/
  isTypeSupported : String → Bool
  /-- Outcome of `hasAudioRecordingPermission()`: `some b` when the
  permission query resolves with value `b`, `none` when it rejects. -/
  permissionState : Option Bool
  /-- Whether `navigator.mediaDevices.getUserMedia({ audio: true })`
  resolves with a stream. -/
  getUserMediaGrants : Bool
  /-- `new Date().getTime()` -/
  now : Nat
  /-- The `FileReader.readAsDataURL` result for a blob. -/
  readAsDataURL : Blob → String

/-- `VoiceRecorderImpl.getSupportedMimeType`: `null` when the host has
no `isTypeSupported`, otherwise the first supported key of
`POSSIBLE_MIME_TYPES` (in declaration order), or `null`. -/
def getSupportedMimeType (env : Env) : Option String :=
  if !env.isTypeSupportedAvailable then none
  else (POSSIBLE_MIME_TYPES.find? fun p => env.isTypeSupported p.1).map Prod.fst

/-- `VoiceRecorderImpl.canDeviceVoiceRecord` as a boolean: success iff
`getUserMedia` exists and a supported mime type was found. -/
def canDeviceVoiceRecord (env : Env) : Bool :=
  env.getUserMediaAvailable && (getSupportedMimeType env).isSome

/-- The effective permission value `startRecording` acts on:
`hasAudioRecordingPermission().catch(() => successResponse())`, so a
rejected query counts as granted. -/
def havingPermissionValue (env : Env) : Bool :=
  match env.permissionState with
  | some b => b
  | none => true

/-- The `RecordingOptions` argument of `startRecording`. -/
structure RecordingOptions where
  directory : String
  subDirectory : Option String
deriving Repr, DecidableEq

/-- The value `stopRecording`'s promise resolves with (the fields of
`RecordingData['value']` that the web implementation fills in). -/
structure RecordingData where
  recordDataBase64 : Option String
  mimeType : String
  msDuration : Nat
  path : Option String
deriving Repr, DecidableEq

/-- The error responses of `predefined-web-responses.ts`. -/
inductive VError where
  | alreadyRecording
  | deviceCannotVoiceRecord
  | missingPermission
  | failedToRecord
  | emptyRecording
  | recordingHasNotStarted
  | failedToFetchRecording
  | couldNotQueryPermissionStatus
deriving Repr, DecidableEq

/-- `GenericResponse` (`{ value: boolean }`). -/
structure GenericResponse where
  value : Bool
deriving Repr, DecidableEq

/-- The `MediaRecorder.state` values the implementation inspects. -/
inductive MRState where
  | recording
  | paused
  | inactive
deriving Repr, DecidableEq

/-- The mutable instance state of a `VoiceRecorderImpl`, together with
the host-side bookkeeping needed to talk about timers and promises:
`activeTimers` is the set of interval timers currently live in the
browser, `pendingResultId` identifies the current `pendingResult`
promise, and the `next…Id` counters make fresh ids. -/
structure InstState where
  /-- `this.mediaRecorder` (`none` = `null`), abstracted to its state. -/
  mediaRecorder : Option MRState
  /-- `this.chunks` -/
  chunks : List Blob
  /-- identity of `this.pendingResult` -/
  pendingResultId : Nat
  /-- `this.safariDataInterval` (`none` = `null`) -/
  safariDataInterval : Option Nat
  /-- ids of interval timers currently running in the host -/
  activeTimers : List Nat
  nextTimerId : Nat
  nextPromiseId : Nat
deriving Repr, DecidableEq

/-- The state after the constructor: no recorder, no chunks, a fresh
never-resolving `pendingResult`, no interval.  Browser timer ids are
positive, so ids start at 1 (the code tests the handle for truthiness). -/
def initialState : InstState :=
  { mediaRecorder := none
    chunks := []
    pendingResultId := 0
    safariDataInterval := none
    activeTimers := []
    nextTimerId := 1
    nextPromiseId := 1 }

/-- `if (this.safariDataInterval) { clearInterval(...); this.safariDataInterval = null; }`
(the clause shared by `stopRecording` and
`prepareInstanceForNextOperation`). -/
def clearDataInterval (s : InstState) : InstState :=
  match s.safariDataInterval with
  | some id => { s with activeTimers := s.activeTimers.erase id, safariDataInterval := none }
  | none => s

/-- `prepareInstanceForNextOperation`: stop a still-recording recorder,
clear the data interval, replace `pendingResult` by a fresh
never-resolving promise, and null the recorder.  (`this.chunks` is left
alone — the reset is commented out in the source.) -/
def prepareInstanceForNextOperation (s : InstState) : InstState :=
  let s1 :=
    match s.mediaRecorder with
    | some MRState.recording => { s with mediaRecorder := some MRState.inactive }
    | _ => s
  let s2 := clearDataInterval s1
  { s2 with
    pendingResultId := s2.nextPromiseId
    nextPromiseId := s2.nextPromiseId + 1
    mediaRecorder := none }

/-- `onSuccessfullyStartedRecording` (state effects): install a fresh
`pendingResult` promise, create the `MediaRecorder` and `start(1000)` it
(state `'recording'`), reset `this.chunks = []`, and register the
2000 ms `setInterval` in `this.safariDataInterval`. -/
def onSuccessfullyStartedRecording (s : InstState) : GenericResponse × InstState :=
  let s1 := { s with pendingResultId := s.nextPromiseId, nextPromiseId := s.nextPromiseId + 1 }
  let s2 := { s1 with mediaRecorder := some MRState.recording, chunks := [] }
  let tid := s2.nextTimerId
  ({ value := true },
   { s2 with
     safariDataInterval := some tid
     activeTimers := s2.activeTimers ++ [tid]
     nextTimerId := tid + 1 })

/-- `onFailedToStartRecording`: reset the instance and throw
`FAILED_TO_RECORD`. -/
def onFailedToStartRecording (s : InstState) : Except VError GenericResponse × InstState :=
  (Except.error VError.failedToRecord, prepareInstanceForNextOperation s)

/-- `startRecording(options?)`.  Throws `ALREADY_RECORDING` when a
recorder exists, then checks device capability and permission, resets
`this.chunks`, and either starts the session (on a granted
`getUserMedia`) or fails through `onFailedToStartRecording`. -/
def startRecording (s : InstState) (env : Env) (_options : Option RecordingOptions) :
    Except VError GenericResponse × InstState :=
  match s.mediaRecorder with
  | some _ => (Except.error VError.alreadyRecording, s)
  | none =>
    if !canDeviceVoiceRecord env then (Except.error VError.deviceCannotVoiceRecord, s)
    else if !havingPermissionValue env then (Except.error VError.missingPermission, s)
    else
      let s1 := { s with chunks := [] }
      if env.getUserMediaGrants then
        let (r, s2) := onSuccessfullyStartedRecording s1
        (Except.ok r, s2)
      else onFailedToStartRecording s1

/-- `stopRecording()`: throws `RECORDING_HAS_NOT_STARTED` without a
recorder; otherwise clears the data interval, stops the recorder (its
host state becomes `'inactive'`), returns `this.pendingResult` (by id),
and — in the `finally` — runs `prepareInstanceForNextOperation`. -/
def stopRecording (s : InstState) : Except VError Nat × InstState :=
  match s.mediaRecorder with
  | none => (Except.error VError.recordingHasNotStarted, s)
  | some _ =>
    let s1 := clearDataInterval s
    let s2 := { s1 with mediaRecorder := s1.mediaRecorder.map fun _ => MRState.inactive }
    (Except.ok s.pendingResultId, prepareInstanceForNextOperation s2)

/-- `pauseRecording()`. -/
def pauseRecording (s : InstState) : Except VError GenericResponse × InstState :=
  match s.mediaRecorder with
  | none => (Except.error VError.recordingHasNotStarted, s)
  | some MRState.recording =>
    (Except.ok { value := true }, { s with mediaRecorder := some MRState.paused })
  | some _ => (Except.ok { value := false }, s)

/-- `resumeRecording()`. -/
def resumeRecording (s : InstState) : Except VError GenericResponse × InstState :=
  match s.mediaRecorder with
  | none => (Except.error VError.recordingHasNotStarted, s)
  | some MRState.paused =>
    (Except.ok { value := true }, { s with mediaRecorder := some MRState.recording })
  | some _ => (Except.ok { value := false }, s)

/-- The capture-group result of matching the fixed pattern
`^\/?(.+[^/])\/?$` against `u` after the optional leading slash was
consumed: the group is greedy (`.+` then a final non-slash character,
so at least two characters), optionally followed by one trailing
slash. -/
def subDirMatchGroup (u : String) : Option String :=
  if 2 ≤ u.length ∧ ¬ u.endsWith "/" then some u
  else if u.endsWith "/" ∧ 2 ≤ (u.dropRight 1).length ∧ ¬ (u.dropRight 1).endsWith "/" then
    some (u.dropRight 1)
  else none

/-- `options.subDirectory?.match(/^\/?(.+[^/])\/?$/)?.[1] ?? ''`: the
regex group with a leading slash consumed if that succeeds (the
backtracking retries without consuming it), else `''`. -/
def cleanSubDirectory (s : String) : String :=
  (if s.startsWith "/" then
    (subDirMatchGroup (s.drop 1)).orElse fun _ => subDirMatchGroup s
   else subDirMatchGroup s).getD ""

/-- `POSSIBLE_MIME_TYPES[mimeType]` — the extension looked up for the
supported mime type.  A missing key would interpolate as the string
`"undefined"` in the template literal. -/
def extensionFor (mimeType : String) : String :=
  (((POSSIBLE_MIME_TYPES.find? fun p => p.1 = mimeType).map Prod.snd).getD "undefined")

/-- Consume the pattern `pat` from the front of a character list,
returning the remainder on success. -/
def dropPattern : List Char → List Char → Option (List Char)
  | rest, [] => some rest
  | [], _ :: _ => none
  | a :: as, p :: ps => if a == p then dropPattern as ps else none

/-- Split a character list on a (non-empty) separator; `fuel` bounds
the recursion and is set to more than the list length. -/
def splitFuel : Nat → List Char → List Char → List Char → List (List Char)
  | 0, s, _, acc => [acc.reverse ++ s]
  | _ + 1, [], _, acc => [acc.reverse]
  | fuel + 1, a :: as, sep, acc =>
    match dropPattern (a :: as) sep with
    | some rest => acc.reverse :: splitFuel fuel rest sep []
    | none => splitFuel fuel as sep (a :: acc)

/-- JavaScript `String.prototype.split` with a non-empty string
separator. -/
def jsSplit (s sep : String) : List String :=
  (splitFuel (s.toList.length + 1) s.toList sep.toList []).map fun cs => ⟨cs⟩

/-- JavaScript `String.prototype.trim`: strip leading and trailing
whitespace. -/
def jsTrim (s : String) : String :=
  let isWs := fun c : Char => c == ' ' || c == '\t' || c == '\n' || c == '\r'
  ⟨((s.toList.dropWhile isWs).reverse.dropWhile isWs).reverse⟩

/-- `VoiceRecorderImpl.blobToBase64`: read the blob as a data URL,
split on `'base64,'`, take the part after it when present
(`splitResult.length > 1`), and trim. -/
def blobToBase64 (env : Env) (blob : Blob) : String :=
  let recordingResult := env.readAsDataURL blob
  let splitResult := jsSplit recordingResult "base64,"
  match splitResult with
  | _ :: second :: _ => jsTrim second
  | _ => jsTrim recordingResult

/-- The `onstop` handler of the media recorder, as a function of the
instance state, the captured `options`, and the host environment.  The
initial `this.mediaRecorder?.requestData()` plus 200 ms wait only asks
the host encoder to flush (any chunk it emits arrives as a separate
`ondataavailable` event) and changes no instance state.  Then: resolve
the mime type or reject `FAILED_TO_FETCH_RECORDING`; reject
`EMPTY_RECORDING` on an empty chunk list or an empty assembled blob;
otherwise either write the blob to a file path (options given) or
base64-encode it (no options), reset the instance, and resolve. -/
def onstopBody (s : InstState) (options : Option RecordingOptions) (env : Env) :
    Except VError RecordingData × InstState :=
  match getSupportedMimeType env with
  | none => (Except.error VError.failedToFetchRecording, prepareInstanceForNextOperation s)
  | some mimeType =>
    match s.chunks with
    | [] => (Except.error VError.emptyRecording, prepareInstanceForNextOperation s)
    | firstChunk :: _ =>
      let blobVoiceRecording := createBlob s.chunks firstChunk.type
      if blobVoiceRecording.size ≤ 0 then
        (Except.error VError.emptyRecording, prepareInstanceForNextOperation s)
      else
        let recordingDuration := 1
        match options with
        | some opts =>
          let subDirectory :=
            match opts.subDirectory with
            | some sd => cleanSubDirectory sd
            | none => ""
          let path :=
            subDirectory ++ "/recording-" ++ toString env.now ++ extensionFor mimeType
          -- await write_blob({ blob, directory, fast_mode, path, recursive }): host file write
          (Except.ok
            { recordDataBase64 := none
              mimeType := mimeType
              msDuration := recordingDuration * 1000
              path := some path },
           prepareInstanceForNextOperation s)
        | none =>
          let recordDataBase64 := blobToBase64 env blobVoiceRecording
          (Except.ok
            { recordDataBase64 := some recordDataBase64
              mimeType := mimeType
              msDuration := recordingDuration * 1000
              path := none },
           prepareInstanceForNextOperation s)

/-- The `onerror` handler: reset the instance and reject the pending
result with `FAILED_TO_RECORD`. -/
def onerrorBody (s : InstState) : Except VError Unit × InstState :=
  (Except.error VError.failedToRecord, prepareInstanceForNextOperation s)

/-- The `ondataavailable` handler's effect on the instance state. -/
def ondataavailableBody (s : InstState) (data : Option Blob) : InstState :=
  { s with chunks := ondataavailableUpdate data s.chunks }

/-- One tick of the `safariDataInterval` callback.  The boolean records
whether `this.mediaRecorder.requestData()` was invoked: only when a
recorder exists and its state is `'recording'`.  The instance state is
never modified by a tick. -/
def intervalTick (s : InstState) : InstState × Bool :=
  match s.mediaRecorder with
  | some MRState.recording => (s, true)
  | _ => (s, false)

/-- The instance state together with the event-loop bookkeeping for
in-flight `startRecording` invocations: `pendingStarts` counts the
calls that have passed the synchronous `mediaRecorder != null` check
and the awaited capability/permission checks and are waiting on
`getUserMedia`'s promise. -/
structure AsyncState where
  inst : InstState
  pendingStarts : Nat
deriving Repr, DecidableEq

/-- One event-loop event of a `VoiceRecorderImpl` instance.  Because
`startRecording` awaits between its `mediaRecorder != null` check and
the `setInterval` registration, it is split at its await points:

* `startBegin` — the call passes the `mediaRecorder != null` check, the
  awaited `canDeviceVoiceRecord` / permission checks succeed,
  `this.chunks = []` runs, and the `getUserMedia` request is issued
  (one more continuation becomes pending);
* `startComplete` — `getUserMedia` resolves and the pending
  continuation runs `onSuccessfullyStartedRecording` (the source does
  not re-check `this.mediaRecorder` there);
* `startFailed` — `getUserMedia` rejects and the pending continuation
  runs `onFailedToStartRecording`.

The remaining operations and callbacks are synchronous with respect to
the recorder/timer fields and stay single events.  When `allowOverlap`
is `false`, `startBegin` additionally requires that no other start is
in flight, i.e. `startRecording` calls do not overlap.  Callback events
over-approximate when the host may fire them. -/
inductive StepA (env : Env) (allowOverlap : Bool) : AsyncState → AsyncState → Prop
  | startBegin (w : AsyncState)
      (h1 : w.inst.mediaRecorder = none)
      (h2 : canDeviceVoiceRecord env = true)
      (h3 : havingPermissionValue env = true)
      (h4 : allowOverlap = true ∨ w.pendingStarts = 0) :
      StepA env allowOverlap w ⟨{ w.inst with chunks := [] }, w.pendingStarts + 1⟩
  | startComplete (w : AsyncState) (n : Nat)
      (h : w.pendingStarts = n + 1)
      (h2 : env.getUserMediaGrants = true) :
      StepA env allowOverlap w ⟨(onSuccessfullyStartedRecording w.inst).2, n⟩
  | startFailed (w : AsyncState) (n : Nat)
      (h : w.pendingStarts = n + 1)
      (h2 : env.getUserMediaGrants = false) :
      StepA env allowOverlap w ⟨prepareInstanceForNextOperation w.inst, n⟩
  | stop (w : AsyncState) :
      StepA env allowOverlap w ⟨(stopRecording w.inst).2, w.pendingStarts⟩
  | pause (w : AsyncState) :
      StepA env allowOverlap w ⟨(pauseRecording w.inst).2, w.pendingStarts⟩
  | resume (w : AsyncState) :
      StepA env allowOverlap w ⟨(resumeRecording w.inst).2, w.pendingStarts⟩
  | onstopEv (w : AsyncState) (opts : Option RecordingOptions) :
      StepA env allowOverlap w ⟨(onstopBody w.inst opts env).2, w.pendingStarts⟩
  | onerrorEv (w : AsyncState) :
      StepA env allowOverlap w ⟨(onerrorBody w.inst).2, w.pendingStarts⟩
  | dataEv (w : AsyncState) (data : Option Blob) :
      StepA env allowOverlap w ⟨ondataavailableBody w.inst data, w.pendingStarts⟩
  | tickEv (w : AsyncState) :
      StepA env allowOverlap w ⟨(intervalTick w.inst).1, w.pendingStarts⟩

/-- States reachable from the freshly constructed instance with no
start in flight. -/
inductive ReachableA (env : Env) (allowOverlap : Bool) : AsyncState → Prop
  | init : ReachableA env allowOverlap ⟨initialState, 0⟩
  | step {w v : AsyncState} :
      ReachableA env allowOverlap w → StepA env allowOverlap w v →
      ReachableA env allowOverlap v

/-- The timer-discipline invariant: the live host timers are exactly
the one referenced by `safariDataInterval` (hence at most one), and an
idle instance (no recorder) holds no timer. -/
def TimerConsistent (s : InstState) : Prop :=
  s.activeTimers = s.safariDataInterval.toList
  ∧ (s.mediaRecorder = none → s.safariDataInterval = none)

/-- A concrete environment for witnesses: `audio/aac` supported,
permission granted, a fixed clock and data-URL reader. -/
def envEx : Env :=
  { getUserMediaAvailable := true
    isTypeSupportedAvailable := true
    isTypeSupported := fun t => t == "audio/aac"
    permissionState := some true
    getUserMediaGrants := true
    now := 1700000000000
    readAsDataURL := fun _ => "data:audio/aac;base64,QUJD" }

/-- A concrete valid audio chunk for witnesses. -/
def audioChunkEx : Blob := { data := [65, 66, 67], type := "audio/aac" }

/-- A concrete mid-session instance state for witnesses: recorder
recording, one accumulated chunk, the interval timer with id 1 live. -/
def sessionStateEx : InstState :=
  { mediaRecorder := some MRState.recording
    chunks := [audioChunkEx]
    pendingResultId := 1
    safariDataInterval := some 1
    activeTimers := [1]
    nextTimerId := 2
    nextPromiseId := 2 }

lemma startsWith_audio_ne_empty {t : String} (h : jsStartsWith t "audio/" = true) : t ≠ "" := by
  intro he
  subst he
  exact absurd h (by decide)

lemma handleChunk_cases (oc : Option Blob) (l : List Blob) :
    handleChunk oc l = if chunkAccepted oc then l ++ oc.toList else l := by
  cases oc with
  | none => simp [handleChunk, chunkAccepted]
  | some c =>
    simp only [handleChunk, chunkAccepted, Option.toList]
    by_cases h1 : c.size > 0
    · by_cases h2 : c.type ≠ "" ∧ jsStartsWith c.type "audio/"
      · simp [h1, h2.1, h2.2]
      · rcases not_and_or.mp h2 with h2a | h2b
        · simp only [ne_eq, not_not] at h2a
          simp [h1, h2a]
        · simp only [Bool.not_eq_true] at h2b
          have h2a : ¬(c.type ≠ "" ∧ jsStartsWith c.type "audio/") := by
            intro hc; rw [hc.2] at h2b; cases h2b
          simp [h1, h2a, h2b]
    · simp [h1]

lemma ondataavailableUpdate_eq (oc : Option Blob) (acc : List Blob) :
    ondataavailableUpdate oc acc =
      acc ++ (if chunkAccepted oc then oc.toList else []) := by
  cases oc with
  | none => simp [ondataavailableUpdate, chunkAccepted]
  | some d =>
    simp only [ondataavailableUpdate]
    by_cases h1 : d.size > 0
    · rw [if_pos h1, handleChunk_cases]
      split
      · rfl
      · simp
    · have hacc : chunkAccepted (some d) = false := by
        simp [chunkAccepted, h1]
      simp [h1, hacc]

lemma accumulateFrom_eq (delivered : List (Option Blob)) (init : List Blob) :
    accumulateFrom init delivered =
      init ++ delivered.filterMap (fun oc => if chunkAccepted oc then oc else none) := by
  induction delivered generalizing init with
  | nil => simp [accumulateFrom]
  | cons oc rest ih =>
    have hstep : accumulateFrom init (oc :: rest) =
        accumulateFrom (ondataavailableUpdate oc init) rest := rfl
    rw [hstep, ih, ondataavailableUpdate_eq]
    cases hc : chunkAccepted oc with
    | false => simp [hc]
    | true =>
      cases oc with
      | none => simp [chunkAccepted] at hc
      | some c => simp [hc]

/-- C7: chunk accumulation is append-only and order-preserving —
`handleChunk c l` is either exactly `l` or `l` with the delivered chunk
appended at the end, so existing elements are never removed, replaced
or reordered and the length grows by at most one. -/
theorem c7_handleChunk_append_only (oc : Option Blob) (l : List Blob) :
    (handleChunk oc l = l ∨ ∃ c, oc = some c ∧ handleChunk oc l = l ++ [c])
    ∧ ∃ t, handleChunk oc l = l ++ t ∧ t.length ≤ 1 := by
  have hc := handleChunk_cases oc l
  constructor
  · by_cases h : chunkAccepted oc = true
    · rw [if_pos h] at hc
      cases oc with
      | none => simp [chunkAccepted] at h
      | some c => exact Or.inr ⟨c, rfl, by simpa using hc⟩
    · rw [if_neg h] at hc
      exact Or.inl hc
  · by_cases h : chunkAccepted oc = true
    · rw [if_pos h] at hc
      exact ⟨oc.toList, hc, by cases oc <;> simp⟩
    · rw [if_neg h] at hc
      exact ⟨[], by simpa using hc, by simp⟩

/-- C2: a delivered chunk is appended to the chunk list if and only if
it is non-null, has strictly positive size, and its MIME type starts
with `'audio/'`; otherwise the list is returned unchanged — and the
Safari variant of the helper applies the same validation. -/
theorem c2_handleChunk_validation (oc : Option Blob) (l : List Blob) :
    ((∃ c, oc = some c ∧ handleChunk oc l = l ++ [c]) ↔
      ∃ c, oc = some c ∧ 0 < c.size ∧ jsStartsWith c.type "audio/" = true)
    ∧ ((¬ ∃ c, oc = some c ∧ 0 < c.size ∧ jsStartsWith c.type "audio/" = true) →
      handleChunk oc l = l)
    ∧ handleSafariChunk oc l = handleChunk oc l := by
  have key : ∀ c : Blob, oc = some c →
      (handleChunk oc l = l ++ [c] ↔ 0 < c.size ∧ jsStartsWith c.type "audio/" = true) := by
    intro c hoc
    subst hoc
    have hc := handleChunk_cases (some c) l
    constructor
    · intro happ
      by_contra hval
      have hacc : chunkAccepted (some c) = false := by
        cases hca : chunkAccepted (some c) with
        | false => rfl
        | true =>
          exfalso
          apply hval
          simp only [chunkAccepted, Bool.and_eq_true, decide_eq_true_eq] at hca
          exact ⟨hca.1, hca.2.2⟩
      rw [hacc] at hc
      simp only [if_neg Bool.false_ne_true] at hc
      rw [hc] at happ
      exact absurd (congrArg List.length happ) (by simp)
    · intro hval
      have hacc : chunkAccepted (some c) = true := by
        simp [chunkAccepted, hval.1, hval.2, startsWith_audio_ne_empty hval.2]
      rw [hacc] at hc
      simpa using hc
  refine ⟨⟨?_, ?_⟩, ?_, rfl⟩
  · rintro ⟨c, hoc, happ⟩
    exact ⟨c, hoc, (key c hoc).mp happ⟩
  · rintro ⟨c, hoc, hval⟩
    exact ⟨c, hoc, (key c hoc).mpr hval⟩
  · intro hnot
    have hc := handleChunk_cases oc l
    have hacc : chunkAccepted oc = false := by
      cases oc with
      | none => simp [chunkAccepted]
      | some c =>
        by_contra hT
        have : chunkAccepted (some c) = true := by
          cases h : chunkAccepted (some c)
          · exact absurd h hT
          · rfl
        simp only [chunkAccepted, Bool.and_eq_true, decide_eq_true_eq] at this
        exact hnot ⟨c, rfl, this.1, this.2.2⟩
    rw [hacc] at hc
    simpa using hc

/-- Witness for C2 at a concrete valid chunk: it gets appended. -/
theorem c2_witness :
    ∃ c, (some audioChunkEx) = some c ∧ handleChunk (some audioChunkEx) [] = [] ++ [c] :=
  (c2_handleChunk_validation (some audioChunkEx) []).1.mpr
    ⟨audioChunkEx, rfl, by decide, by decide⟩

/-- Counterexample to C1 as stated: a delivered chunk with MIME type
`video/mp4` and positive size is received by the data callback but
omitted from the artifact, so the final blob is not the join of all
delivered chunks. -/
theorem c1_counterexample :
    ¬ ((createBlob
          (accumulateChunks
            [some { data := [1, 2], type := "video/mp4" },
             some { data := [3], type := "audio/mp4" }])
          "audio/mp4").data
        = ([some ({ data := [1, 2], type := "video/mp4" } : Blob),
            some ({ data := [3], type := "audio/mp4" } : Blob)].map
            fun oc => (oc.map Blob.data).getD []).flatten) := by
  decide

/-- C1 (amended): the artifact is the concatenated blob obtained by
joining, in delivery order, exactly those chunks delivered by the data
callback that pass validation (non-null, positive size, MIME type
starting with `'audio/'`); no validated chunk is omitted or
reordered. -/
theorem c1_amended_artifact (delivered : List (Option Blob)) (t : String) :
    accumulateChunks delivered
      = delivered.filterMap (fun oc => if chunkAccepted oc then oc else none)
    ∧ (createBlob (accumulateChunks delivered) t).data
      = ((accumulateChunks delivered).map Blob.data).flatten := by
  refine ⟨?_, rfl⟩
  have h := accumulateFrom_eq delivered []
  simpa [accumulateChunks] using h

/-- The Safari user-agent test that `isSafari` was documented to
perform (`SAFARI_FIXES.md`) and that remains, commented out, in
`safari-helpers.ts`: the case-insensitive regex
`^((?!chrome|android).)*safari` — some occurrence of `safari` such
that neither `chrome` nor `android` occurs at any earlier position. -/
def isSafariUserAgent (ua : String) : Bool :=
  let l := ua.toList.map Char.toLower
  let occursAt := fun (pat : List Char) (j : Nat) => (l.drop j).take pat.length == pat
  (List.range (l.length + 1)).any fun i =>
    occursAt "safari".toList i
    && (List.range i).all fun j =>
        !(occursAt "chrome".toList j || occursAt "android".toList j)

/-- A Chrome desktop user agent (contains `chrome` before `safari`). -/
def chromeUserAgentEx : String :=
  "Mozilla/5.0 (Windows NT 10.0; Win64; x64) AppleWebKit/537.36 (KHTML, like Gecko) Chrome/120.0.0.0 Safari/537.36"

/-- A macOS Safari user agent. -/
def safariUserAgentEx : String :=
  "Mozilla/5.0 (Macintosh; Intel Mac OS X 10_15_7) AppleWebKit/605.1.15 (KHTML, like Gecko) Version/17.0 Safari/605.1.15"

/-- C4 (code behaviour at the failing input): `isSafari` returns `true`
unconditionally — also for a Chrome user agent that the documented
detection regex rejects — and the workaround layer is engaged
regardless: `onSuccessfullyStartedRecording` always registers the
2000 ms flush interval. -/
theorem c4_isSafari_always_true :
    isSafari = true
    ∧ isSafariUserAgent chromeUserAgentEx = false
    ∧ isSafariUserAgent safariUserAgentEx = true
    ∧ ((onSuccessfullyStartedRecording initialState).2.safariDataInterval = some 1) := by
  refine ⟨rfl, by decide, by decide, rfl⟩

lemma clearDataInterval_spec (s : InstState) (h : s.activeTimers = s.safariDataInterval.toList) :
    (clearDataInterval s).activeTimers = []
    ∧ (clearDataInterval s).safariDataInterval = none
    ∧ (clearDataInterval s).mediaRecorder = s.mediaRecorder
    ∧ (clearDataInterval s).chunks = s.chunks
    ∧ (clearDataInterval s).pendingResultId = s.pendingResultId
    ∧ (clearDataInterval s).nextTimerId = s.nextTimerId
    ∧ (clearDataInterval s).nextPromiseId = s.nextPromiseId := by
  rcases s with ⟨mr, ch, pr, si, tl, nt, np⟩
  cases si <;> simp_all [clearDataInterval, Option.toList]

lemma prepare_mediaRecorder_none (s : InstState) :
    (prepareInstanceForNextOperation s).mediaRecorder = none := rfl

lemma prepare_spec (s : InstState) (h : s.activeTimers = s.safariDataInterval.toList) :
    (prepareInstanceForNextOperation s).activeTimers = []
    ∧ (prepareInstanceForNextOperation s).safariDataInterval = none := by
  rcases s with ⟨mr, ch, pr, si, tl, nt, np⟩
  rcases mr with _ | st
  · cases si <;> simp_all [prepareInstanceForNextOperation, clearDataInterval, Option.toList]
  · cases st <;> cases si <;>
      simp_all [prepareInstanceForNextOperation, clearDataInterval, Option.toList]

lemma prepare_timerConsistent (s : InstState) (h : s.activeTimers = s.safariDataInterval.toList) :
    TimerConsistent (prepareInstanceForNextOperation s) := by
  obtain ⟨h1, h2⟩ := prepare_spec s h
  exact ⟨by rw [h1, h2]; rfl, fun _ => h2⟩

lemma prepare_interval_none_always (s : InstState) :
    (prepareInstanceForNextOperation s).safariDataInterval = none := by
  rcases s with ⟨mr, ch, pr, si, tl, nt, np⟩
  rcases mr with _ | st
  · cases si <;> rfl
  · cases st <;> cases si <;> rfl

lemma onSuccess_timerConsistent (s : InstState)
    (htl : s.activeTimers = []) :
    TimerConsistent (onSuccessfullyStartedRecording s).2 := by
  unfold onSuccessfullyStartedRecording TimerConsistent
  simp [htl]

lemma onstopBody_state (s : InstState) (opts : Option RecordingOptions) (env : Env) :
    (onstopBody s opts env).2 = prepareInstanceForNextOperation s := by
  unfold onstopBody
  cases hm : getSupportedMimeType env with
  | none => rfl
  | some m =>
    cases hch : s.chunks with
    | nil => rfl
    | cons c rest =>
      dsimp only
      split
      · rfl
      · cases opts <;> rfl

lemma intervalTick_state (s : InstState) : (intervalTick s).1 = s := by
  unfold intervalTick
  rcases s with ⟨mr, ch, pr, si, tl, nt, np⟩
  rcases mr with _ | st
  · rfl
  · cases st <;> rfl

lemma stopRecording_timerConsistent (s : InstState) (hs : TimerConsistent s) :
    TimerConsistent (stopRecording s).2 := by
  cases hmr : s.mediaRecorder with
  | none => simpa [stopRecording, hmr] using hs
  | some st =>
    unfold stopRecording
    rw [hmr]
    dsimp only
    apply prepare_timerConsistent
    obtain ⟨h1, h2, _⟩ := clearDataInterval_spec s hs.1
    simp [h1, h2]

lemma pauseRecording_timerConsistent (s : InstState) (hs : TimerConsistent s) :
    TimerConsistent (pauseRecording s).2 := by
  rcases s with ⟨mr, ch, pr, si, tl, nt, np⟩
  rcases mr with _ | st
  · exact hs
  · cases st
    · exact ⟨hs.1, fun hx => nomatch hx⟩
    · exact hs
    · exact hs

lemma resumeRecording_timerConsistent (s : InstState) (hs : TimerConsistent s) :
    TimerConsistent (resumeRecording s).2 := by
  rcases s with ⟨mr, ch, pr, si, tl, nt, np⟩
  rcases mr with _ | st
  · exact hs
  · cases st
    · exact hs
    · exact ⟨hs.1, fun hx => nomatch hx⟩
    · exact hs

lemma stopRecording_state_cases (s : InstState) :
    ((stopRecording s).2 = s ∧ s.mediaRecorder = none)
    ∨ ((stopRecording s).2.mediaRecorder = none
        ∧ (stopRecording s).2.safariDataInterval = none) := by
  rcases s with ⟨mr, ch, pr, si, tl, nt, np⟩
  rcases mr with _ | st
  · exact Or.inl ⟨rfl, rfl⟩
  · exact Or.inr ⟨prepare_mediaRecorder_none _, prepare_interval_none_always _⟩

lemma pauseRecording_of_none (s : InstState) (h : s.mediaRecorder = none) :
    (pauseRecording s).2 = s := by
  rcases s with ⟨mr, ch, pr, si, tl, nt, np⟩
  rcases mr with _ | st
  · rfl
  · exact nomatch h

lemma resumeRecording_of_none (s : InstState) (h : s.mediaRecorder = none) :
    (resumeRecording s).2 = s := by
  rcases s with ⟨mr, ch, pr, si, tl, nt, np⟩
  rcases mr with _ | st
  · rfl
  · exact nomatch h

lemma pauseRecording_nullHandle (s : InstState)
    (h : s.mediaRecorder = none → s.safariDataInterval = none) :
    (pauseRecording s).2.mediaRecorder = none → (pauseRecording s).2.safariDataInterval = none := by
  rcases s with ⟨mr, ch, pr, si, tl, nt, np⟩
  rcases mr with _ | st
  · exact h
  · cases st
    · exact fun hx => nomatch hx
    · exact h
    · exact h

lemma resumeRecording_nullHandle (s : InstState)
    (h : s.mediaRecorder = none → s.safariDataInterval = none) :
    (resumeRecording s).2.mediaRecorder = none → (resumeRecording s).2.safariDataInterval = none := by
  rcases s with ⟨mr, ch, pr, si, tl, nt, np⟩
  rcases mr with _ | st
  · exact h
  · cases st
    · exact h
    · exact fun hx => nomatch hx
    · exact h

lemma stepA_nullHandle {env : Env} {ov : Bool} {w v : AsyncState}
    (h : w.inst.mediaRecorder = none → w.inst.safariDataInterval = none)
    (hs : StepA env ov w v) :
    v.inst.mediaRecorder = none → v.inst.safariDataInterval = none := by
  cases hs with
  | startBegin h1 h2 h3 h4 => exact fun hx => h hx
  | startComplete n hn h2 => exact fun hx => nomatch hx
  | startFailed n hn h2 => exact fun _ => prepare_interval_none_always _
  | stop =>
    rcases stopRecording_state_cases w.inst with ⟨he, _⟩ | ⟨_, hsi⟩
    · show (stopRecording w.inst).2.mediaRecorder = none →
        (stopRecording w.inst).2.safariDataInterval = none
      rw [he]
      exact h
    · exact fun _ => hsi
  | pause => exact pauseRecording_nullHandle w.inst h
  | resume => exact resumeRecording_nullHandle w.inst h
  | onstopEv opts =>
    show (onstopBody w.inst opts env).2.mediaRecorder = none →
      (onstopBody w.inst opts env).2.safariDataInterval = none
    rw [onstopBody_state]
    exact fun _ => prepare_interval_none_always _
  | onerrorEv => exact fun _ => prepare_interval_none_always _
  | dataEv data => exact fun hx => h hx
  | tickEv =>
    show (intervalTick w.inst).1.mediaRecorder = none →
      (intervalTick w.inst).1.safariDataInterval = none
    rw [intervalTick_state]
    exact h

lemma reachableA_nullHandle {env : Env} {ov : Bool} {v : AsyncState}
    (h : ReachableA env ov v) :
    v.inst.mediaRecorder = none → v.inst.safariDataInterval = none := by
  induction h with
  | init => exact fun _ => rfl
  | step _ hst ih => exact stepA_nullHandle ih hst

/-- The inductive invariant of sequential (non-overlapping) operation:
the live timers are exactly the one the handle references, an idle
instance holds no timer, at most one start is ever in flight, and while
one is in flight no recorder exists yet. -/
def SeqInv (w : AsyncState) : Prop :=
  w.inst.activeTimers = w.inst.safariDataInterval.toList
  ∧ (w.inst.mediaRecorder = none → w.inst.safariDataInterval = none)
  ∧ w.pendingStarts ≤ 1
  ∧ (w.pendingStarts = 1 → w.inst.mediaRecorder = none)

lemma seqInv_step {env : Env} {w v : AsyncState}
    (hi : SeqInv w) (hs : StepA env false w v) : SeqInv v := by
  obtain ⟨ha, hb, hc, hd⟩ := hi
  cases hs with
  | startBegin h1 h2 h3 h4 =>
    rcases h4 with h4 | h4
    · exact nomatch h4
    · exact ⟨ha, hb, by show w.pendingStarts + 1 ≤ 1; omega, fun _ => h1⟩
  | startComplete n hn h2 =>
    have hn0 : n = 0 := by omega
    subst hn0
    have hmr : w.inst.mediaRecorder = none := hd (by omega)
    have htl : w.inst.activeTimers = [] := by rw [ha, hb hmr]; rfl
    obtain ⟨u1, u2⟩ := onSuccess_timerConsistent w.inst htl
    exact ⟨u1, u2, by show (0 : Nat) ≤ 1; omega,
      fun hx => absurd (show (0 : Nat) = 1 from hx) (by omega)⟩
  | startFailed n hn h2 =>
    obtain ⟨u1, u2⟩ := prepare_timerConsistent w.inst ha
    exact ⟨u1, u2, by show n ≤ 1; omega, fun _ => prepare_mediaRecorder_none _⟩
  | stop =>
    obtain ⟨u1, u2⟩ := stopRecording_timerConsistent w.inst ⟨ha, hb⟩
    refine ⟨u1, u2, hc, fun hp => ?_⟩
    rcases stopRecording_state_cases w.inst with ⟨he, hmr⟩ | ⟨hmr, _⟩
    · show (stopRecording w.inst).2.mediaRecorder = none
      rw [he]
      exact hmr
    · exact hmr
  | pause =>
    obtain ⟨u1, u2⟩ := pauseRecording_timerConsistent w.inst ⟨ha, hb⟩
    refine ⟨u1, u2, hc, fun hp => ?_⟩
    have hmr : w.inst.mediaRecorder = none := hd hp
    show (pauseRecording w.inst).2.mediaRecorder = none
    rw [pauseRecording_of_none w.inst hmr]
    exact hmr
  | resume =>
    obtain ⟨u1, u2⟩ := resumeRecording_timerConsistent w.inst ⟨ha, hb⟩
    refine ⟨u1, u2, hc, fun hp => ?_⟩
    have hmr : w.inst.mediaRecorder = none := hd hp
    show (resumeRecording w.inst).2.mediaRecorder = none
    rw [resumeRecording_of_none w.inst hmr]
    exact hmr
  | onstopEv opts =>
    have hps : (onstopBody w.inst opts env).2 = prepareInstanceForNextOperation w.inst :=
      onstopBody_state w.inst opts env
    obtain ⟨u1, u2⟩ := prepare_timerConsistent w.inst ha
    refine ⟨?_, ?_, hc, fun _ => ?_⟩
    · show (onstopBody w.inst opts env).2.activeTimers
        = (onstopBody w.inst opts env).2.safariDataInterval.toList
      rw [hps]
      exact u1
    · show (onstopBody w.inst opts env).2.mediaRecorder = none →
        (onstopBody w.inst opts env).2.safariDataInterval = none
      rw [hps]
      exact u2
    · show (onstopBody w.inst opts env).2.mediaRecorder = none
      rw [hps]
      exact prepare_mediaRecorder_none _
  | onerrorEv =>
    obtain ⟨u1, u2⟩ := prepare_timerConsistent w.inst ha
    exact ⟨u1, u2, hc, fun _ => prepare_mediaRecorder_none _⟩
  | dataEv data => exact ⟨ha, hb, hc, fun hp => hd hp⟩
  | tickEv =>
    refine ⟨?_, ?_, hc, fun hp => ?_⟩
    · show (intervalTick w.inst).1.activeTimers
        = (intervalTick w.inst).1.safariDataInterval.toList
      rw [intervalTick_state]
      exact ha
    · show (intervalTick w.inst).1.mediaRecorder = none →
        (intervalTick w.inst).1.safariDataInterval = none
      rw [intervalTick_state]
      exact hb
    · show (intervalTick w.inst).1.mediaRecorder = none
      rw [intervalTick_state]
      exact hd hp

lemma seqReachable_inv {env : Env} {w : AsyncState}
    (h : ReachableA env false w) : SeqInv w := by
  induction h with
  | init => exact ⟨rfl, fun _ => rfl, Nat.zero_le 1, fun _ => rfl⟩
  | step _ hst ih => exact seqInv_step ih hst

/-- The state reached by two overlapping `startRecording` calls that
both pass the `mediaRecorder != null` check before either `getUserMedia`
resolves: the second completion overwrites `safariDataInterval` with
timer 2 while timer 1 is still live. -/
def twoTimerStateEx : AsyncState :=
  ⟨{ mediaRecorder := some MRState.recording
     chunks := []
     pendingResultId := 2
     safariDataInterval := some 2
     activeTimers := [1, 2]
     nextTimerId := 3
     nextPromiseId := 3 }, 0⟩

/-- Counterexample to C5 as stated: a reachable quiescent state (no
start in flight) with two live flush timers.  Two overlapping
`startRecording` calls both pass the null check; each completion runs
`onSuccessfullyStartedRecording`, which registers a new interval
without clearing the previous one, so the first timer leaks. -/
theorem c5_counterexample :
    ReachableA envEx true twoTimerStateEx
    ∧ ¬ twoTimerStateEx.inst.activeTimers.length ≤ 1
    ∧ twoTimerStateEx.pendingStarts = 0 := by
  refine ⟨?_, by decide, rfl⟩
  exact ReachableA.step
    (ReachableA.step
      (ReachableA.step
        (ReachableA.step ReachableA.init
          (StepA.startBegin _ rfl rfl rfl (Or.inl rfl)))
        (StepA.startBegin _ rfl rfl rfl (Or.inl rfl)))
      (StepA.startComplete _ 1 rfl rfl))
    (StepA.startComplete _ 0 rfl rfl)

/-- C5 (amended): the timer handle `safariDataInterval` is null
whenever no session is active (`mediaRecorder` null) in every reachable
state, even under overlapping `startRecording` calls; and when
`startRecording` invocations do not overlap, every reachable state has
at most one live flush timer and the session-ending operations
(`stopRecording`, the error handler) leave the instance with neither
timer nor recorder. -/
theorem c5_amended_single_timer (env : Env) (w v : AsyncState)
    (hseq : ReachableA env false w) (hall : ReachableA env true v) :
    (w.inst.activeTimers.length ≤ 1
      ∧ (w.inst.mediaRecorder = none → w.inst.safariDataInterval = none)
      ∧ (stopRecording w.inst).2.safariDataInterval = none
      ∧ (stopRecording w.inst).2.mediaRecorder = none
      ∧ (onerrorBody w.inst).2.safariDataInterval = none
      ∧ (onerrorBody w.inst).2.mediaRecorder = none)
    ∧ (v.inst.mediaRecorder = none → v.inst.safariDataInterval = none) := by
  obtain ⟨ha, hb, hc, hd⟩ := seqReachable_inv hseq
  refine ⟨⟨?_, hb, ?_, ?_, ?_, ?_⟩, reachableA_nullHandle hall⟩
  · rw [ha]
    cases w.inst.safariDataInterval <;> simp [Option.toList]
  · rcases stopRecording_state_cases w.inst with ⟨he, hmr⟩ | ⟨_, hsi⟩
    · rw [he]
      exact hb hmr
    · exact hsi
  · rcases stopRecording_state_cases w.inst with ⟨he, hmr⟩ | ⟨hmr, _⟩
    · rw [he]
      exact hmr
    · exact hmr
  · exact prepare_interval_none_always _
  · exact prepare_mediaRecorder_none _

/-- The state reached by one (non-overlapped) start from the initial
state. -/
def oneTimerStateEx : AsyncState :=
  ⟨{ mediaRecorder := some MRState.recording
     chunks := []
     pendingResultId := 1
     safariDataInterval := some 1
     activeTimers := [1]
     nextTimerId := 2
     nextPromiseId := 2 }, 0⟩

/-- Witness for the amended C5 at the concrete state after one
sequential start (and, for the overlap part, the initial state). -/
theorem c5_witness :
    (oneTimerStateEx.inst.activeTimers.length ≤ 1
      ∧ (oneTimerStateEx.inst.mediaRecorder = none →
          oneTimerStateEx.inst.safariDataInterval = none)
      ∧ (stopRecording oneTimerStateEx.inst).2.safariDataInterval = none
      ∧ (stopRecording oneTimerStateEx.inst).2.mediaRecorder = none
      ∧ (onerrorBody oneTimerStateEx.inst).2.safariDataInterval = none
      ∧ (onerrorBody oneTimerStateEx.inst).2.mediaRecorder = none)
    ∧ ((⟨initialState, 0⟩ : AsyncState).inst.mediaRecorder = none →
        (⟨initialState, 0⟩ : AsyncState).inst.safariDataInterval = none) :=
  c5_amended_single_timer envEx oneTimerStateEx ⟨initialState, 0⟩
    (ReachableA.step
      (ReachableA.step ReachableA.init
        (StepA.startBegin _ rfl rfl rfl (Or.inr rfl)))
      (StepA.startComplete _ 0 rfl rfl))
    ReachableA.init

/-- C6: a flush-timer tick fired while the recorder is null, paused or
inactive performs no `requestData` flush and leaves the instance state
unchanged. -/
theorem c6_tick_noop (s : InstState)
    (h : s.mediaRecorder = none ∨ s.mediaRecorder = some MRState.paused
        ∨ s.mediaRecorder = some MRState.inactive) :
    intervalTick s = (s, false) := by
  rcases h with h | h | h <;> simp [intervalTick, h]

/-- Witness for C6 at the initial (idle) state. -/
theorem c6_witness : intervalTick initialState = (initialState, false) :=
  c6_tick_noop initialState (Or.inl rfl)

/-- C10: when a recorder already exists, `startRecording` throws
`ALREADY_RECORDING` and leaves the entire instance state — recorder,
chunk list, pending result, flush timer — unchanged. -/
theorem c10_startRecording_atomic (s : InstState) (env : Env)
    (opts : Option RecordingOptions) (h : s.mediaRecorder ≠ none) :
    startRecording s env opts = (Except.error VError.alreadyRecording, s) := by
  cases hmr : s.mediaRecorder with
  | none => exact absurd hmr h
  | some st => simp [startRecording, hmr]

/-- Witness for C10 at a concrete mid-session state. -/
theorem c10_witness :
    startRecording sessionStateEx envEx none
      = (Except.error VError.alreadyRecording, sessionStateEx) :=
  c10_startRecording_atomic sessionStateEx envEx none (by decide)

lemma onstopBody_ok {s : InstState} {opts : Option RecordingOptions} {env : Env}
    {r : RecordingData} {s' : InstState}
    (h : onstopBody s opts env = (Except.ok r, s')) :
    r.msDuration = 1000
    ∧ ((opts.isSome ∧ r.path.isSome ∧ r.recordDataBase64 = none)
      ∨ (opts = none ∧ r.recordDataBase64.isSome ∧ r.path = none)) := by
  unfold onstopBody at h
  cases hm : getSupportedMimeType env with
  | none => rw [hm] at h; simp at h
  | some m =>
    rw [hm] at h
    dsimp only at h
    cases hch : s.chunks with
    | nil => rw [hch] at h; simp at h
    | cons c rest =>
      rw [hch] at h
      dsimp only at h
      by_cases hsz : (createBlob (c :: rest) c.type).size ≤ 0
      · rw [if_pos hsz] at h; simp at h
      · rw [if_neg hsz] at h
        cases opts with
        | some o =>
          dsimp only at h
          injection h with h1 h2
          injection h1 with hr
          subst hr
          simp
        | none =>
          dsimp only at h
          injection h with h1 h2
          injection h1 with hr
          subst hr
          simp

/-- C3: a successfully resolved recording carries exactly one payload
form, decided by the `options` argument: with options a written-file
`path` and no `recordDataBase64`; without options a `recordDataBase64`
and no `path` — never both and never neither. -/
theorem c3_exactly_one_payload (s : InstState) (opts : Option RecordingOptions)
    (env : Env) (r : RecordingData) (s' : InstState)
    (h : onstopBody s opts env = (Except.ok r, s')) :
    (opts.isSome ∧ r.path.isSome ∧ r.recordDataBase64 = none)
    ∨ (opts = none ∧ r.recordDataBase64.isSome ∧ r.path = none) :=
  (onstopBody_ok h).2

/-- The recording data produced by a successful no-options stop in the
concrete witness environment. -/
def okRecordingEx : RecordingData :=
  { recordDataBase64 := some "QUJD"
    mimeType := "audio/aac"
    msDuration := 1000
    path := none }

/-- Witness for C3: a concrete no-options stop resolves with a base64
payload and no path. -/
theorem c3_witness :
    ((none : Option RecordingOptions).isSome
        ∧ okRecordingEx.path.isSome ∧ okRecordingEx.recordDataBase64 = none)
    ∨ ((none : Option RecordingOptions) = none
        ∧ okRecordingEx.recordDataBase64.isSome ∧ okRecordingEx.path = none) :=
  c3_exactly_one_payload sessionStateEx none envEx okRecordingEx
    (prepareInstanceForNextOperation sessionStateEx) rfl

/-- C8: every successfully resolved recording reports
`msDuration = 1000`, independent of how long the recording ran — the
duration is hard-coded to one second. -/
theorem c8_msDuration_hardcoded (s : InstState) (opts : Option RecordingOptions)
    (env : Env) (r : RecordingData) (s' : InstState)
    (h : onstopBody s opts env = (Except.ok r, s')) :
    r.msDuration = 1000 :=
  (onstopBody_ok h).1

/-- Witness for C8: the concrete successful stop reports 1000 ms. -/
theorem c8_witness : okRecordingEx.msDuration = 1000 :=
  c8_msDuration_hardcoded sessionStateEx none envEx okRecordingEx
    (prepareInstanceForNextOperation sessionStateEx) rfl

lemma onstopBody_error_empty (s : InstState) (opts : Option RecordingOptions) (env : Env)
    (hm : (getSupportedMimeType env).isSome)
    (h : s.chunks = [] ∨ ∃ c rest, s.chunks = c :: rest ∧ (createBlob s.chunks c.type).size ≤ 0) :
    (onstopBody s opts env).1 = Except.error VError.emptyRecording := by
  obtain ⟨m, hm'⟩ := Option.isSome_iff_exists.mp hm
  unfold onstopBody
  rw [hm']
  dsimp only
  rcases h with hnil | ⟨c, rest, hch, hsz⟩
  · rw [hnil]
  · rw [hch] at hsz
    rw [hch]
    dsimp only
    rw [if_pos hsz]

lemma startRecording_not_already (t : InstState) (env2 : Env)
    (opts2 : Option RecordingOptions) (hmr : t.mediaRecorder = none) :
    (startRecording t env2 opts2).1 ≠ Except.error VError.alreadyRecording := by
  rcases t with ⟨mr, ch, pr, si, tl, nt, np⟩
  simp only at hmr
  subst hmr
  unfold startRecording
  dsimp only
  by_cases hdev : canDeviceVoiceRecord env2
  · by_cases hperm : havingPermissionValue env2
    · by_cases hgum : env2.getUserMediaGrants
      · simp [hdev, hperm, hgum]
      · simp [hdev, hperm, hgum, onFailedToStartRecording]
    · simp [hdev, hperm]
  · simp [hdev]

/-- C9: if at stop time the accumulated chunk list is empty, or the
assembled blob has size ≤ 0, the pending result rejects with
`EMPTY_RECORDING` and the instance is reset to idle (recorder null,
flush timer null), so a subsequent `startRecording` is not refused with
`ALREADY_RECORDING`. -/
theorem c9_empty_recording_reset (s : InstState) (opts : Option RecordingOptions)
    (env env2 : Env) (opts2 : Option RecordingOptions)
    (hm : (getSupportedMimeType env).isSome)
    (h : s.chunks = [] ∨ ∃ c rest, s.chunks = c :: rest ∧ (createBlob s.chunks c.type).size ≤ 0) :
    (onstopBody s opts env).1 = Except.error VError.emptyRecording
    ∧ (onstopBody s opts env).2.mediaRecorder = none
    ∧ (onstopBody s opts env).2.safariDataInterval = none
    ∧ (startRecording (onstopBody s opts env).2 env2 opts2).1
        ≠ Except.error VError.alreadyRecording := by
  refine ⟨onstopBody_error_empty s opts env hm h, ?_, ?_, ?_⟩
  · rw [onstopBody_state]
    exact prepare_mediaRecorder_none s
  · rw [onstopBody_state]
    exact prepare_interval_none_always s
  · exact startRecording_not_already _ env2 opts2
      (by rw [onstopBody_state]; exact prepare_mediaRecorder_none s)

/-- A concrete stop-time state with no accumulated chunks. -/
def emptyChunksStateEx : InstState :=
  { mediaRecorder := some MRState.inactive
    chunks := []
    pendingResultId := 1
    safariDataInterval := none
    activeTimers := []
    nextTimerId := 2
    nextPromiseId := 2 }

/-- Witness for C9 at the concrete empty-chunks stop. -/
theorem c9_witness :
    (onstopBody emptyChunksStateEx none envEx).1 = Except.error VError.emptyRecording
    ∧ (onstopBody emptyChunksStateEx none envEx).2.mediaRecorder = none
    ∧ (onstopBody emptyChunksStateEx none envEx).2.safariDataInterval = none
    ∧ (startRecording (onstopBody emptyChunksStateEx none envEx).2 envEx none).1
        ≠ Except.error VError.alreadyRecording :=
  c9_empty_recording_reset emptyChunksStateEx none envEx envEx none rfl (Or.inl rfl)

end VoiceRec
